import Mathlib

/-!
Shallow embedding of the vocabulary/complexity analysis engine of
`src/vocabulary_analysis.py` (Advanced-Text-Analyser), together with
theorems settling the specification claims about it.

Modelling conventions:
* Python strings are Lean `String`s; character-level work happens on the
  underlying `List Char`.
* Python numeric values are exact: `ℕ`/`ℤ` for counts, `ℚ` for float
  arithmetic that stays rational, `ℝ` where `math.sqrt` is involved.
  `round(x, 1)` is modelled as `round (10*x) / 10`.
* Fallible Python code (code that can raise: division by zero, `word[0]`
  on an empty word, `random.sample` with an out-of-range size) is
  modelled with `Option`: `none` means the call raises.
* `random.sample` is modelled by an abstract sampler parameter; the
  predicate `SampleSpec` states the guarantees Python's `random.sample`
  provides (exact size, drawn without replacement, `ValueError` when the
  requested size is negative or exceeds the population).  `sample_first`
  is a concrete sampler satisfying `SampleSpec`, used for evaluation.
-/

/-- Python `\w` word character (ASCII idealization): alphanumeric or underscore. -/
def isWordChar (c : Char) : Bool := c.isAlphanum || c = '_'

/-- Python `str.lower()` (per-character lowercasing). -/
def toLowerStr (s : String) : String := String.mk (s.data.map Char.toLower)

/-- Accumulate maximal runs of characters satisfying `p`; the accumulator
holds the current run reversed.  This is `re.findall(r'\b\w+\b', ·)`:
word-boundary-delimited maximal word-character runs. -/
def tokenizeAux (p : Char → Bool) : List Char → List Char → List (List Char)
  | [], acc => if acc.isEmpty then [] else [acc.reverse]
  | c :: cs, acc =>
    if p c then tokenizeAux p cs (c :: acc)
    else if acc.isEmpty then tokenizeAux p cs []
    else acc.reverse :: tokenizeAux p cs []

/-- `tokenize_text(text)`: `re.findall(r'\b\w+\b', text.lower())`. -/
def tokenize_text (text : String) : List String :=
  (tokenizeAux isWordChar (toLowerStr text).data []).map String.mk

/-- Scan for `re.split(r'(?<=[.!?])\s+', text)`: a whitespace character whose
predecessor in the original text is `.`, `!` or `?` starts a separator; the
separator is the maximal whitespace run from there.  The accumulator holds the
current sentence reversed, so its head is the predecessor character; `inSep`
records that we are still consuming the whitespace run of a separator. -/
def sentSplitAux : List Char → List Char → Bool → List (List Char)
  | [], acc, _ => [acc.reverse]
  | c :: cs, acc, inSep =>
    if inSep then
      if c.isWhitespace then sentSplitAux cs acc true
      else sentSplitAux cs [c] false
    else if c.isWhitespace ∧
        (acc.head? = some '.' ∨ acc.head? = some '!' ∨ acc.head? = some '?') then
      acc.reverse :: sentSplitAux cs [] true
    else sentSplitAux cs (c :: acc) false

/-- `sentence_tokenize(text)`: `re.split(r'(?<=[.!?])\s+', text)`. -/
def sentence_tokenize (text : String) : List String :=
  (sentSplitAux text.data [] false).map String.mk

/-- Python `word[i] in 'aeiouy'`. -/
def isVowel (c : Char) : Bool := c ∈ ['a', 'e', 'i', 'o', 'u', 'y']

/-- Last character test, i.e. Python `word.endswith(c)` for a single character. -/
def endsWith1 (w : List Char) (c : Char) : Bool :=
  match w.reverse with
  | y :: _ => y = c
  | [] => false

/-- Python `word.endswith(ab)` for a two-character suffix `ab`. -/
def endsWith2 (w : List Char) (a b : Char) : Bool :=
  match w.reverse with
  | y :: x :: _ => x = a ∧ y = b
  | _ => false

/-- `count_syllables(word)`.  The vowel-group count is: 1 if the first
character is a vowel, plus one for every index `i ≥ 1` with `word[i]` a vowel
and `word[i-1]` not a vowel (the adjacent pairs are `w.zip w.tail`).  Then the
silent-e rule subtracts 1 for a trailing `e`, the `-le` rule adds 1 back, and
a zero result is bumped to 1.  `word[0]` on the empty word raises IndexError,
modelled as `none`. -/
def syllable_core (c : Char) (cs : List Char) : ℤ :=
  let base : ℤ := (if isVowel c then 1 else 0) +
    (((c :: cs).zip cs).countP (fun p => !(isVowel p.1) && isVowel p.2) : ℕ)
  let afterE : ℤ := base - (if endsWith1 (c :: cs) 'e' then 1 else 0)
  let afterLe : ℤ := afterE + (if endsWith2 (c :: cs) 'l' 'e' then 1 else 0)
  if afterLe = 0 then afterLe + 1 else afterLe

/-- See `syllable_core` for the non-degenerate case. -/
def count_syllables (word : String) : Option ℤ :=
  match (toLowerStr word).data with
  | [] => none
  | c :: cs => some (syllable_core c cs)

/-- Python `round(x, 1)` on exact values: round to one decimal place. -/
def round1Q (x : ℚ) : ℚ := (round (10 * x) : ℤ) / 10

/-- `calculate_flesch_kincaid_grade(text)`.  Sentence count, word count and the
syllable sum are computed before the zero guard, exactly as in the source;
`sum(count_syllables(word) for word in tokenize_text(text))` is the `mapM`. -/
def calculate_flesch_kincaid_grade (text : String) : Option ℚ := do
  let s := (sentence_tokenize text).length
  let w := (tokenize_text text).length
  let sylls ← (tokenize_text text).mapM count_syllables
  let y : ℤ := sylls.sum
  if s = 0 ∨ w = 0 then pure 0
  else pure (round1Q (0.39 * ((w : ℚ) / s) + 11.8 * ((y : ℚ) / w) - 15.59))

/-- `calculate_flesch_reading_ease(text)`. -/
def calculate_flesch_reading_ease (text : String) : Option ℚ := do
  let s := (sentence_tokenize text).length
  let w := (tokenize_text text).length
  let sylls ← (tokenize_text text).mapM count_syllables
  let y : ℤ := sylls.sum
  if s = 0 ∨ w = 0 then pure 0
  else pure (round1Q (206.835 - 1.015 * ((w : ℚ) / s) - 84.6 * ((y : ℚ) / w)))

/-- `calculate_gunning_fog_index(text)`; `complex_words` are the tokens with
syllable count `> 2`. -/
def calculate_gunning_fog_index (text : String) : Option ℚ := do
  let s := (sentence_tokenize text).length
  let words := tokenize_text text
  let sylls ← words.mapM count_syllables
  let c := (sylls.filter (fun n => 2 < n)).length
  if s = 0 ∨ words.length = 0 then pure 0
  else pure (round1Q (0.4 * (((words.length : ℚ)) / s + 100 * ((c : ℚ) / words.length))))

/-- Python `round(x, 1)` after `math.sqrt`: one-decimal rounding on ℝ. -/
noncomputable def round1R (x : ℝ) : ℝ := (round (10 * x) : ℤ) / 10

/-- `calculate_smog_index(text)`; `polysyllables` are the tokens with syllable
count `≥ 3`.  The only guard in the source is `len(sentences) < 30`. -/
noncomputable def calculate_smog_index (text : String) : Option ℝ := do
  let sentences := sentence_tokenize text
  let sylls ← (tokenize_text text).mapM count_syllables
  let p := (sylls.filter (fun n => 3 ≤ n)).length
  if sentences.length < 30 then pure 0
  else pure (round1R (1.0430 * Real.sqrt ((p : ℝ) * (30 / (sentences.length : ℝ))) + 3.1291))

/-- `calculate_ttr(text)`: `len(set(words)) / len(words)` with no guard — on an
empty token list the division raises ZeroDivisionError, modelled as `none`. -/
def calculate_ttr (text : String) : Option ℚ :=
  let words := tokenize_text text
  if words.length = 0 then none
  else some ((words.dedup.length : ℚ) / (words.length : ℚ))

/-- One step of the `calculate_mtld` loop: append the word to the current
factor, compute the factor's TTR, and close the factor when TTR ≤ threshold.
State: (closed factor lengths, current factor). -/
def mtldStep (threshold : ℚ) (st : List ℕ × List String) (word : String) :
    List ℕ × List String :=
  let cur := st.2 ++ [word]
  let ttr : ℚ := (cur.dedup.length : ℚ) / (cur.length : ℚ)
  if ttr ≤ threshold then (st.1 ++ [cur.length], []) else (st.1, cur)

/-- `calculate_mtld(text, threshold=0.72)`. -/
def calculate_mtld (text : String) (threshold : ℚ) : ℚ :=
  let words := tokenize_text text
  let st := words.foldl (mtldStep threshold) ([], [])
  if st.1.length = 0 then (words.length : ℚ)
  else ((st.1.sum : ℚ)) / (st.1.length : ℚ)

/-- `calculate_avg_sentence_length(text)`:
`len(words) / len(sentences) if sentences else 0`. -/
def calculate_avg_sentence_length (text : String) : ℚ :=
  let sentences := sentence_tokenize text
  let words := tokenize_text text
  if sentences.isEmpty then 0
  else (words.length : ℚ) / (sentences.length : ℚ)

/-- The fixed clause-marker list of `calculate_clause_density`. -/
def clause_markers : List String :=
  ["and", "but", "because", "if", "when", "while", "although", "as", "since",
   "unless", "though", "whereas", "whether"]

/-- Python `marker in sentence.lower()`: substring containment. -/
def markerIn (marker sentence : String) : Bool :=
  decide (marker.data <:+: (toLowerStr sentence).data)

/-- `calculate_clause_density(text)`: each sentence contributes
`sum(1 for marker in clause_markers if marker in sentence.lower()) + 1`;
the total is divided by the number of sentences (0 if none). -/
def calculate_clause_density (text : String) : ℚ :=
  let sentences := sentence_tokenize text
  let clause_count : ℕ :=
    (sentences.map (fun s => clause_markers.countP (fun m => markerIn m s) + 1)).sum
  if sentences.isEmpty then 0
  else (clause_count : ℚ) / (sentences.length : ℚ)

/-- The rule cascade of `simple_pos_tagger`, first match wins. -/
def tagOf (word : String) : String :=
  if word ∈ ["the", "a", "an"] then "DT"
  else if word ∈ ["is", "am", "are", "was", "were"] then "VB"
  else if ("ly" : String).data.isSuffixOf word.data then "RB"
  else if ("ed" : String).data.isSuffixOf word.data then "VBD"
  else if ("ing" : String).data.isSuffixOf word.data then "VBG"
  else if word ∈ ["i", "you", "he", "she", "it", "we", "they"] then "PRP"
  else "NN"

/-- `simple_pos_tagger(text)`: tag every token, in order. -/
def simple_pos_tagger (text : String) : List (String × String) :=
  (tokenize_text text).map (fun w => (w, tagOf w))

/-- `collections.Counter` over a list: one entry per distinct element with its
multiplicity. -/
def counterOf {α : Type} [DecidableEq α] (l : List α) : List (α × ℕ) :=
  l.dedup.map (fun x => (x, l.count x))

/-- Python `counter.get(key, 0)` on the association-list counter. -/
def counter_get {α : Type} [DecidableEq α] (d : List (α × ℕ)) (key : α) : ℕ :=
  match d.find? (fun p => decide (p.1 = key)) with
  | some p => p.2
  | none => 0

/-- `calculate_pos_distribution(text)`: `Counter(tag for word, tag in pos_tags)`. -/
def calculate_pos_distribution (text : String) : List (String × ℕ) :=
  counterOf ((simple_pos_tagger text).map Prod.snd)

/-- `calculate_ngram_frequency(text, n)`: `range(len(words)-n+1)` is empty when
`len(words)-n+1` is negative, hence the computation through ℤ and `toNat`. -/
def calculate_ngram_frequency (text : String) (n : ℕ) : List (List String × ℕ) :=
  let words := tokenize_text text
  let m : ℤ := (words.length : ℤ) - (n : ℤ) + 1
  let ngrams := (List.range m.toNat).map (fun i => (words.drop i).take n)
  counterOf ngrams

/-- Stable descending insertion by count (models the stable sort underlying
`Counter.most_common`). -/
def insertByCount {α : Type} (p : α × ℕ) : List (α × ℕ) → List (α × ℕ)
  | [] => [p]
  | q :: qs => if q.2 < p.2 then p :: q :: qs else q :: insertByCount p qs

/-- `counter.most_common(k)`: entries sorted by descending count, first `k`. -/
def most_common {α : Type} (d : List (α × ℕ)) (k : ℕ) : List (α × ℕ) :=
  (d.foldr insertByCount []).take k

/-- Python `' '.join(l)`. -/
def joinSpace (l : List String) : String :=
  String.mk (List.intercalate [' '] (l.map String.data))

/-- `tag.startswith(('NN', 'VB', 'JJ', 'RB'))`. -/
def isContentTag (tag : String) : Bool :=
  ("NN" : String).data.isPrefixOf tag.data || ("VB" : String).data.isPrefixOf tag.data ||
  ("JJ" : String).data.isPrefixOf tag.data || ("RB" : String).data.isPrefixOf tag.data

/-- The `content_words` list of `generate_cloze_test`: one entry per content
*occurrence* (duplicates kept). -/
def content_words (text : String) : List String :=
  (simple_pos_tagger text).filterMap
    (fun p => if isContentTag p.2 then some p.1 else none)

/-- Guarantees of Python's `random.sample(l, k)` (here with `k : ℤ` so that a
negative request is expressible): for `0 ≤ k ≤ len(l)` it returns a
length-`k` selection without replacement (a sub-permutation of `l`);
otherwise it raises ValueError, modelled as `none`.  The uniform-randomness of
the selection is not modelled. -/
def SampleSpec (sampler : List String → ℤ → Option (List String)) : Prop :=
  (∀ l k, 0 ≤ k → k ≤ (l.length : ℤ) →
    ∃ r, sampler l k = some r ∧ (r.length : ℤ) = k ∧ r.Subperm l) ∧
  (∀ l k, k < 0 ∨ (l.length : ℤ) < k → sampler l k = none)

/-- A concrete sampler satisfying `SampleSpec`: take the first `k` elements. -/
def sample_first (l : List String) (k : ℤ) : Option (List String) :=
  if 0 ≤ k ∧ k ≤ (l.length : ℤ) then some (l.take k.toNat) else none

/-- `generate_cloze_test(text, num_blanks)`, parameterized by the sampler
standing in for `random.sample`.  `num_blanks` is clamped down to
`len(content_words)` when it exceeds it; every token equal (as a string) to a
chosen word is replaced by `_____`. -/
def generate_cloze_test (sampler : List String → ℤ → Option (List String))
    (text : String) (num_blanks : ℤ) : Option (String × List String) := do
  let words := tokenize_text text
  let cw := content_words text
  let k := if (cw.length : ℤ) < num_blanks then (cw.length : ℤ) else num_blanks
  let words_to_blank ← sampler cw k
  let cloze_text :=
    joinSpace (words.map (fun w => if w ∈ words_to_blank then "_____" else w))
  pure (cloze_text, words_to_blank)

/-- The inline score computation of `analyze_vocabulary` (source lines
165–174): the normalized readability score followed by the weighted
complexity score.  The average sentence length, clause density, POS
distribution and token count are recomputed from the text exactly as they are
in scope at that point in the source. -/
noncomputable def complexity_score_calc (text : String) (fk_grade flesch_ease gunning_fog : ℚ)
    (smog : ℝ) (ttr : ℚ) : ℝ :=
  let readability_score : ℝ :=
    ((fk_grade : ℝ) / 12 + (100 - (flesch_ease : ℝ)) / 100 + (gunning_fog : ℝ) / 18 + smog / 18) / 4
  readability_score * 0.4 +
  (1 - (ttr : ℝ)) * 0.2 +
  min ((calculate_avg_sentence_length text : ℝ) / 20) 1 * 0.2 +
  min ((calculate_clause_density text : ℝ) / 3) 1 * 0.1 +
  ((counter_get (calculate_pos_distribution text) "VB" : ℝ) /
      ((tokenize_text text).length : ℝ)) * 0.05 +
  ((counter_get (calculate_pos_distribution text) "JJ" : ℝ) /
      ((tokenize_text text).length : ℝ)) * 0.05

/-- The CEFR level cascade of `analyze_vocabulary` (source lines 176–183). -/
noncomputable def overall_level_of (complexity_score : ℝ) : String :=
  if complexity_score < 0.35 then "A1"
  else if complexity_score < 0.55 then "A2"
  else if complexity_score < 0.75 then "B1"
  else "B2"

/-- The result record returned by `analyze_vocabulary`. -/
structure AnalysisResult where
  overall_level : String
  flesch_kincaid_grade : ℚ
  flesch_reading_ease : ℚ
  gunning_fog_index : ℚ
  smog_index : ℝ
  type_token_ratio : ℚ
  mtld : ℚ
  avg_sentence_length : ℚ
  clause_density : ℚ
  pos_distribution : List (String × ℕ)
  top_bigrams : List (List String × ℕ)
  cloze_test : String
  blanked_words : List String
  complexity_score : ℝ

/-- `analyze_vocabulary(text)`: the orchestrating entry point, with the
sampler standing in for `random.sample` and the default `num_blanks=5` for the
cloze test.  The metric calls occur in source order, so the first raising call
(modelled `none`) aborts the analysis like a propagating exception. -/
noncomputable def analyze_vocabulary (sampler : List String → ℤ → Option (List String))
    (text : String) : Option AnalysisResult := do
  let fk_grade ← calculate_flesch_kincaid_grade text
  let flesch_ease ← calculate_flesch_reading_ease text
  let gunning_fog ← calculate_gunning_fog_index text
  let smog ← calculate_smog_index text
  let ttr ← calculate_ttr text
  let mtld := calculate_mtld text 0.72
  let avg_sentence_length := calculate_avg_sentence_length text
  let clause_density := calculate_clause_density text
  let pos_distribution := calculate_pos_distribution text
  let bigram_freq := calculate_ngram_frequency text 2
  let cloze ← generate_cloze_test sampler text 5
  let complexity_score := complexity_score_calc text fk_grade flesch_ease gunning_fog smog ttr
  pure
    { overall_level := overall_level_of complexity_score
      flesch_kincaid_grade := fk_grade
      flesch_reading_ease := flesch_ease
      gunning_fog_index := gunning_fog
      smog_index := smog
      type_token_ratio := ttr
      mtld := mtld
      avg_sentence_length := avg_sentence_length
      clause_density := clause_density
      pos_distribution := pos_distribution
      top_bigrams := most_common bigram_freq 10
      cloze_test := cloze.1
      blanked_words := cloze.2
      complexity_score := complexity_score }

/-- The spec's "same weighted formula with the JJ term removed", for
comparison with `complexity_score_calc` (which includes the
`pos_distribution.get('JJ', 0)` term of the source). -/
noncomputable def complexity_score_noJJ (text : String) (fk_grade flesch_ease gunning_fog : ℚ)
    (smog : ℝ) (ttr : ℚ) : ℝ :=
  let readability_score : ℝ :=
    ((fk_grade : ℝ) / 12 + (100 - (flesch_ease : ℝ)) / 100 + (gunning_fog : ℝ) / 18 + smog / 18) / 4
  readability_score * 0.4 +
  (1 - (ttr : ℝ)) * 0.2 +
  min ((calculate_avg_sentence_length text : ℝ) / 20) 1 * 0.2 +
  min ((calculate_clause_density text : ℝ) / 3) 1 * 0.1 +
  ((counter_get (calculate_pos_distribution text) "VB" : ℝ) /
      ((tokenize_text text).length : ℝ)) * 0.05

/-- Thirty `!`-only sentences and no word tokens: 30 exclamation marks
separated by single spaces. -/
def smog_cex_text : String :=
  "! ! ! ! ! ! ! ! ! ! ! ! ! ! ! ! ! ! ! ! ! ! ! ! ! ! ! ! ! !"

/-! ### Sanity checks on concrete inputs -/

example : tokenize_text "The cat sat. The cat ran." =
    ["the", "cat", "sat", "the", "cat", "ran"] := by decide

example : tokenize_text "" = [] := by decide

example : sentence_tokenize "The cat sat. The cat ran." =
    ["The cat sat.", "The cat ran."] := by decide

example : sentence_tokenize "" = [""] := by decide

example : sentence_tokenize "a. b c" = ["a.", "b c"] := by decide

example : sentence_tokenize "a.  b.  " = ["a.", "b.", ""] := by decide

example : count_syllables "hello" = some 2 := by decide

example : count_syllables "apple" = some 2 := by decide

example : count_syllables "make" = some 1 := by decide

example : count_syllables "bcd" = some 1 := by decide

example : count_syllables "" = none := by decide

example : calculate_ttr "" = none := by decide

example : calculate_ttr "the cat the" = some (2 / 3) := by
  have h : tokenize_text "the cat the" = ["the", "cat", "the"] := by decide
  have h2 : (["the", "cat", "the"] : List String).dedup.length = 2 := by decide
  simp [calculate_ttr, h, h2]

example : simple_pos_tagger "He quickly jumped" =
    [("he", "PRP"), ("quickly", "RB"), ("jumped", "VBD")] := by decide

example : content_words "The cat is running" = ["cat", "is", "running"] := by decide

example : generate_cloze_test sample_first "cat cat." 5 =
    some ("_____ _____", ["cat", "cat"]) := by decide

example : generate_cloze_test sample_first "cat." (-1) = none := by decide

example : calculate_flesch_kincaid_grade "" = some 0 := by decide

/-! ### Helper lemmas -/

/-- The sentence splitter never returns an empty list: `re.split` always
yields at least one piece. -/
theorem sentSplitAux_ne_nil (l : List Char) : ∀ acc inSep, sentSplitAux l acc inSep ≠ [] := by
  induction l with
  | nil => intro acc inSep; simp [sentSplitAux]
  | cons c cs ih =>
    intro acc inSep
    rw [sentSplitAux]
    split
    · split
      · exact ih acc true
      · exact ih [c] false
    · split
      · simp
      · exact ih (c :: acc) false

/-- Every input has at least one sentence. -/
theorem sentence_tokenize_length_pos (text : String) : 1 ≤ (sentence_tokenize text).length := by
  rw [sentence_tokenize, List.length_map]
  have h := sentSplitAux_ne_nil text.data [] false
  exact List.length_pos.mpr h

/-- Every run produced by `tokenizeAux` is nonempty. -/
theorem tokenizeAux_ne_nil (p : Char → Bool) (l : List Char) :
    ∀ acc t, t ∈ tokenizeAux p l acc → t ≠ [] := by
  induction l with
  | nil =>
    intro acc t ht
    rw [tokenizeAux] at ht
    split at ht
    · simp at ht
    · rename_i hacc
      simp only [List.mem_singleton] at ht
      subst ht
      simpa [List.isEmpty_iff] using hacc
  | cons c cs ih =>
    intro acc t ht
    rw [tokenizeAux] at ht
    split at ht
    · exact ih (c :: acc) t ht
    · split at ht
      · exact ih [] t ht
      · rename_i hacc
        rcases List.mem_cons.mp ht with h | h
        · subst h
          simpa [List.isEmpty_iff] using hacc
        · exact ih [] t h

/-- Every token has nonempty character data. -/
theorem tokenize_text_data_ne_nil (text : String) :
    ∀ w ∈ tokenize_text text, w.data ≠ [] := by
  intro w hw
  rw [tokenize_text] at hw
  rcases List.mem_map.mp hw with ⟨t, ht, rfl⟩
  exact tokenizeAux_ne_nil _ _ _ t ht

/-- `count_syllables` succeeds on every word with nonempty data. -/
theorem count_syllables_isSome {w : String} (h : w.data ≠ []) :
    count_syllables w ≠ none := by
  rw [count_syllables]
  have hne : (toLowerStr w).data ≠ [] := by
    show w.data.map Char.toLower ≠ []
    simpa using h
  rcases hd : (toLowerStr w).data with _ | ⟨c, cs⟩
  · exact absurd hd hne
  · simp

/-- `mapM count_syllables` over a list of words with nonempty data succeeds and
returns the per-word syllable values. -/
theorem mapM_count_syllables (l : List String) (h : ∀ w ∈ l, w.data ≠ []) :
    l.mapM count_syllables = some (l.map (fun w => (count_syllables w).getD 0)) := by
  induction l with
  | nil => rfl
  | cons w ws ih =>
    have hw := count_syllables_isSome (h w (List.mem_cons_self w ws))
    rcases hv : count_syllables w with _ | v
    · exact absurd hv hw
    · rw [List.mapM_cons, hv, ih (fun x hx => h x (List.mem_cons_of_mem w hx))]
      simp [hv]

/-- `counter_get` over a mapped association list is a guarded lookup. -/
theorem counter_get_map {α : Type} [DecidableEq α] (xs : List α) (f : α → ℕ) (k : α) :
    counter_get (xs.map (fun x => (x, f x))) k = if k ∈ xs then f k else 0 := by
  induction xs with
  | nil => simp [counter_get]
  | cons x xs ih =>
    by_cases hx : x = k
    · subst hx
      simp [counter_get, List.find?_cons]
    · rw [counter_get, List.map_cons, List.find?_cons]
      have : (decide ((x, f x).1 = k)) = false := by simpa using hx
      rw [this]
      rw [counter_get] at ih
      rw [ih]
      simp [List.mem_cons, hx, Ne.symm hx]

/-- `counter_get` of a `counterOf` counter is the multiplicity. -/
theorem counter_get_counterOf {α : Type} [DecidableEq α] (l : List α) (k : α) :
    counter_get (counterOf l) k = l.count k := by
  rw [counterOf, counter_get_map]
  by_cases h : k ∈ l
  · simp [List.mem_dedup, h]
  · simp [List.mem_dedup, h, List.count_eq_zero.mpr h]

/-! ### Claim theorems -/

/-- C2: for every input text, the values of the POS-tag histogram produced by
`calculate_pos_distribution` sum to the number of tokens produced by
`tokenize_text` — every token receives exactly one tag. -/
theorem pos_distribution_sums_to_token_count (text : String) :
    ((calculate_pos_distribution text).map Prod.snd).sum = (tokenize_text text).length := by
  rw [calculate_pos_distribution, counterOf, List.map_map]
  have hcomp :
      (Prod.snd ∘ fun x => (x, ((simple_pos_tagger text).map Prod.snd).count x)) =
        fun x => ((simple_pos_tagger text).map Prod.snd).count x := rfl
  rw [hcomp, List.sum_map_count_dedup_eq_length, List.length_map, simple_pos_tagger,
    List.length_map]

/-- C10: every input string, the empty and whitespace-only strings included,
splits into at least one sentence (the empty text is one empty sentence), so
the per-sentence divisions in `calculate_avg_sentence_length` and
`calculate_clause_density` are genuine divisions by a positive count, never
the zero fallback. -/
theorem sentence_count_positive (text : String) :
    1 ≤ (sentence_tokenize text).length ∧
    sentence_tokenize "" = [""] ∧
    calculate_avg_sentence_length text =
      ((tokenize_text text).length : ℚ) / ((sentence_tokenize text).length : ℚ) ∧
    calculate_clause_density text =
      ((((sentence_tokenize text).map
          (fun s => clause_markers.countP (fun m => markerIn m s) + 1)).sum : ℕ) : ℚ) /
        ((sentence_tokenize text).length : ℚ) := by
  have hpos := sentence_tokenize_length_pos text
  have hne : ¬ (sentence_tokenize text).isEmpty := by
    rw [List.isEmpty_iff]
    intro hnil
    rw [hnil] at hpos
    simp at hpos
  refine ⟨hpos, by decide, ?_, ?_⟩
  · rw [calculate_avg_sentence_length]
    simp [hne]
  · rw [calculate_clause_density]
    simp [hne]

/-- C5: the level classifier partitions scores into the four CEFR levels by
half-open intervals with no gaps or overlaps, and the boundary scores 0.34,
0.35, 0.55 and 0.75 classify as A1, A2, B1 and B2 respectively. -/
theorem overall_level_thresholds (s : ℝ) :
    (overall_level_of s = "A1" ↔ s < 0.35) ∧
    (overall_level_of s = "A2" ↔ 0.35 ≤ s ∧ s < 0.55) ∧
    (overall_level_of s = "B1" ↔ 0.55 ≤ s ∧ s < 0.75) ∧
    (overall_level_of s = "B2" ↔ 0.75 ≤ s) ∧
    overall_level_of (0.34 : ℝ) = "A1" ∧ overall_level_of (0.35 : ℝ) = "A2" ∧
    overall_level_of (0.55 : ℝ) = "B1" ∧ overall_level_of (0.75 : ℝ) = "B2" := by
  constructor
  · unfold overall_level_of
    split_ifs with h1 h2 h3 <;> simp_all
  constructor
  · unfold overall_level_of
    split_ifs with h1 h2 h3 <;> simp_all [not_lt] <;> first | rfl | (intro h; linarith)
  constructor
  · unfold overall_level_of
    split_ifs with h1 h2 h3 <;> simp_all [not_lt] <;> first | rfl | (intro h; linarith)
  constructor
  · unfold overall_level_of
    split_ifs with h1 h2 h3 <;> simp_all [not_lt] <;> linarith
  refine ⟨?_, ?_, ?_, ?_⟩ <;> (unfold overall_level_of; norm_num)

/-- If a word contains a vowel, its vowel-group count is at least 1. -/
theorem vowel_groups_pos (c : Char) (cs : List Char) :
    (∃ v ∈ c :: cs, isVowel v) →
    1 ≤ (if isVowel c then (1 : ℤ) else 0) +
      ((((c :: cs).zip cs).countP (fun p => !(isVowel p.1) && isVowel p.2) : ℕ) : ℤ) := by
  induction cs generalizing c with
  | nil =>
    rintro ⟨v, hv, hvow⟩
    simp only [List.mem_singleton] at hv
    subst hv
    simp [hvow]
  | cons c2 cs ih =>
    rintro ⟨v, hv, hvow⟩
    by_cases h1 : isVowel c
    · have : (0 : ℤ) ≤ ((((c :: c2 :: cs).zip (c2 :: cs)).countP
          (fun p => !(isVowel p.1) && isVowel p.2) : ℕ) : ℤ) := Int.natCast_nonneg _
      simp only [h1, if_true]
      omega
    · rw [List.zip_cons_cons, List.countP_cons]
      have hc1 : isVowel c = false := by simpa using h1
      by_cases h2 : isVowel c2
      · simp only [hc1, h2, Bool.not_false, Bool.true_and, if_true, Bool.and_true]
        push_cast
        have : (0 : ℤ) ≤ ((((c2 :: cs).zip cs).countP
            (fun p => !(isVowel p.1) && isVowel p.2) : ℕ) : ℤ) := Int.natCast_nonneg _
        omega
      · have hc2 : isVowel c2 = false := by simpa using h2
        have hv' : ∃ v ∈ c2 :: cs, isVowel v := by
          rcases List.mem_cons.mp hv with h | h
          · subst h; exact absurd hvow (by simp [h1])
          · exact ⟨v, h, hvow⟩
        have hih := ih c2 hv'
        simp only [hc2, Bool.false_eq_true, if_false] at hih
        simp only [hc1, hc2, Bool.and_false, Bool.false_eq_true, if_false,
          Bool.not_false, add_zero]
        omega

/-- A two-character suffix `le` in particular ends in `e`. -/
theorem endsWith2_imp_endsWith1 (w : List Char) (h : endsWith2 w 'l' 'e' = true) :
    endsWith1 w 'e' = true := by
  unfold endsWith2 at h
  unfold endsWith1
  rcases hr : w.reverse with _ | ⟨y, _ | ⟨x, r⟩⟩ <;> rw [hr] at h <;> simp_all

/-- The last character of a list is one of its members. -/
theorem mem_of_endsWith1 (w : List Char) (c : Char) (h : endsWith1 w c = true) : c ∈ w := by
  unfold endsWith1 at h
  rcases hr : w.reverse with _ | ⟨y, rest⟩
  · rw [hr] at h; simp at h
  · rw [hr] at h
    simp only [decide_eq_true_eq] at h
    subst h
    have hy : y ∈ w.reverse := by rw [hr]; exact List.mem_cons_self _ _
    exact List.mem_reverse.mp hy

/-- The non-degenerate syllable count is always at least 1. -/
theorem syllable_core_ge_one (c : Char) (cs : List Char) : 1 ≤ syllable_core c cs := by
  unfold syllable_core
  dsimp only
  set b : ℤ := ((((c :: cs).zip cs).countP
    (fun p => !(isVowel p.1) && isVowel p.2) : ℕ) : ℤ) with hb
  have hb0 : 0 ≤ b := hb ▸ Int.natCast_nonneg _
  set a : ℤ := (if isVowel c then (1 : ℤ) else 0) with ha
  have ha0 : 0 ≤ a := by rw [ha]; split <;> omega
  by_cases he1 : endsWith1 (c :: cs) 'e' = true
  · have hab : 1 ≤ a + b := by
      have hv := vowel_groups_pos c cs ⟨'e', mem_of_endsWith1 _ _ he1, by decide⟩
      rw [← ha, ← hb] at hv
      exact hv
    by_cases he2 : endsWith2 (c :: cs) 'l' 'e' = true
    · rw [if_pos he1, if_pos he2]
      split <;> omega
    · rw [if_pos he1, if_neg he2]
      split <;> omega
  · have he2 : ¬ endsWith2 (c :: cs) 'l' 'e' = true :=
      fun hx => he1 (endsWith2_imp_endsWith1 _ hx)
    rw [if_neg he1, if_neg he2]
    split <;> omega

/-- C9: for every non-empty word, `count_syllables` returns normally and its
result is at least 1 — the silent-e and -le adjustments never push the final
clamped count below 1. -/
theorem count_syllables_ge_one (w : String) (h : w ≠ "") :
    ∃ n : ℤ, count_syllables w = some n ∧ 1 ≤ n := by
  have hd : w.data ≠ [] := by
    intro hnil
    apply h
    cases w with
    | mk l => cases hnil; rfl
  have hne : (toLowerStr w).data ≠ [] := by
    show w.data.map Char.toLower ≠ []
    simpa using hd
  rcases hcs : (toLowerStr w).data with _ | ⟨c, cs⟩
  · exact absurd hcs hne
  refine ⟨syllable_core c cs, ?_, syllable_core_ge_one c cs⟩
  unfold count_syllables
  rw [hcs]

/-- Witness for C9 at the concrete word `hello`. -/
theorem count_syllables_ge_one_witness :
    ("hello" : String) ≠ "" ∧ ∃ n : ℤ, count_syllables "hello" = some n ∧ 1 ≤ n :=
  ⟨by decide, count_syllables_ge_one "hello" (by decide)⟩

/-- The per-sentence marker count of the source (a `countP` over the fixed,
duplicate-free marker list) is the number of *distinct* marker words present
in the lowercased sentence. -/
theorem marker_countP_eq_card (s : String) :
    clause_markers.countP (fun m => markerIn m s) =
      (clause_markers.toFinset.filter
        (fun m => m.data <:+: (toLowerStr s).data)).card := by
  have hnd : clause_markers.Nodup := by decide
  have hfil : (clause_markers.filter (fun m => markerIn m s)).Nodup := hnd.filter _
  rw [List.countP_eq_length_filter]
  have h1 : (clause_markers.filter (fun m => markerIn m s)).length =
      (clause_markers.filter (fun m => markerIn m s)).toFinset.card := by
    rw [List.card_toFinset, hfil.dedup]
  rw [h1, List.toFinset_filter]
  congr 1
  apply Finset.filter_congr
  intro m _
  simp [markerIn]

/-- C7: for every input text, each sentence's clause count is 1 plus the
number of distinct clause-marker words present (case-insensitively, as
substrings) in that sentence — each marker type at most once however often it
occurs — and the clause density is the average of these counts over all
sentences. -/
theorem clause_density_avg_of_distinct_markers (text : String) :
    calculate_clause_density text =
      ((sentence_tokenize text).map (fun s =>
        (1 : ℚ) + ((clause_markers.toFinset.filter
          (fun m => m.data <:+: (toLowerStr s).data)).card : ℚ))).sum /
        ((sentence_tokenize text).length : ℚ) := by
  have hpos := sentence_tokenize_length_pos text
  have hne : ¬ (sentence_tokenize text).isEmpty := by
    rw [List.isEmpty_iff]
    intro hnil
    rw [hnil] at hpos
    simp at hpos
  rw [calculate_clause_density]
  simp only [hne, Bool.false_eq_true, if_false]
  rw [Nat.cast_list_sum, List.map_map]
  congr 1
  congr 1
  apply List.map_congr_left
  intro s _
  simp only [Function.comp_apply, marker_countP_eq_card s]
  push_cast
  ring

/-- The POS tag cascade never produces the tag `JJ`. -/
theorem tagOf_ne_JJ (w : String) : tagOf w ≠ "JJ" := by
  unfold tagOf
  split_ifs <;> decide

/-- No token is ever tagged `JJ`. -/
theorem jj_tag_count_zero (text : String) :
    ((simple_pos_tagger text).map Prod.snd).count "JJ" = 0 := by
  rw [List.count_eq_zero]
  intro hmem
  rw [simple_pos_tagger, List.map_map] at hmem
  rcases List.mem_map.mp hmem with ⟨w, _, hw⟩
  exact tagOf_ne_JJ w hw

/-- C8: the tagger never emits `JJ`, so the `0.05 * (count(JJ)/totalTokens)`
term of the complexity score is 0 on every input, and the complexity score
equals the same weighted formula with that term removed. -/
theorem complexity_score_jj_term_zero (text : String) (fk_grade flesch_ease gunning_fog : ℚ)
    (smog : ℝ) (ttr : ℚ) :
    ((simple_pos_tagger text).map Prod.snd).count "JJ" = 0 ∧
    ((counter_get (calculate_pos_distribution text) "JJ" : ℝ) /
        ((tokenize_text text).length : ℝ)) * 0.05 = 0 ∧
    complexity_score_calc text fk_grade flesch_ease gunning_fog smog ttr =
      complexity_score_noJJ text fk_grade flesch_ease gunning_fog smog ttr := by
  have h0 := jj_tag_count_zero text
  have hg : counter_get (calculate_pos_distribution text) "JJ" = 0 := by
    rw [calculate_pos_distribution, counter_get_counterOf]
    exact h0
  refine ⟨h0, ?_, ?_⟩
  · rw [hg]
    simp
  · unfold complexity_score_calc complexity_score_noJJ
    rw [hg]
    push_cast
    ring

/-- C1: on the empty input the analysis does not return an all-zero result —
`calculate_ttr("")` divides by the zero token count (ZeroDivisionError,
modelled `none`), and that fault propagates out of `analyze_vocabulary("")`,
whichever sampler stands in for `random.sample`. -/
theorem analyze_vocabulary_empty_raises (sampler : List String → ℤ → Option (List String)) :
    analyze_vocabulary sampler "" = none ∧ calculate_ttr "" = none := by
  have httr : calculate_ttr "" = none := by decide
  refine ⟨?_, httr⟩
  have hfk : calculate_flesch_kincaid_grade "" = some 0 := by decide
  have hfe : calculate_flesch_reading_ease "" = some 0 := by decide
  have hgf : calculate_gunning_fog_index "" = some 0 := by decide
  have hsm : calculate_smog_index "" = some 0 := by
    have ht : tokenize_text "" = [] := by decide
    have hs : (sentence_tokenize "").length = 1 := by decide
    rw [calculate_smog_index]
    simp [ht, hs]
    rfl
  rw [analyze_vocabulary]
  rw [hfk, hfe, hgf, hsm, httr]
  rfl

/-- `sample_first` satisfies the `random.sample` contract. -/
theorem sample_first_spec : SampleSpec sample_first := by
  constructor
  · intro l k hk0 hkl
    refine ⟨l.take k.toNat, ?_, ?_, (List.take_sublist _ _).subperm⟩
    · rw [sample_first, if_pos ⟨hk0, hkl⟩]
    · rw [List.length_take]
      have hle : k.toNat ≤ l.length := Int.toNat_le.mpr hkl
      rw [min_eq_left hle]
      exact Int.toNat_of_nonneg hk0
  · intro l k hk
    rw [sample_first, if_neg]
    intro ⟨h0, h1⟩
    rcases hk with h | h <;> omega

/-- C3 (amended): for any sampler obeying the `random.sample` contract and a
non-negative requested blank count, `generate_cloze_test` returns normally; the
chosen words are drawn without replacement from the content-word *occurrence*
list (duplicates included), and their number is `min requested |content-word
occurrences|` — not the distinct-content-word count. -/
theorem cloze_blank_count (text : String) (n : ℤ)
    (sampler : List String → ℤ → Option (List String)) (hs : SampleSpec sampler)
    (hn : 0 ≤ n) :
    ∃ cloze chosen, generate_cloze_test sampler text n = some (cloze, chosen) ∧
      (chosen.length : ℤ) = min n ((content_words text).length : ℤ) ∧
      chosen.Subperm (content_words text) := by
  simp only [generate_cloze_test]
  set cw := content_words text with hcw
  set k := if ((cw.length : ℕ) : ℤ) < n then ((cw.length : ℕ) : ℤ) else n with hk
  have hk0 : 0 ≤ k := by rw [hk]; split <;> omega
  have hkl : k ≤ ((cw.length : ℕ) : ℤ) := by rw [hk]; split <;> omega
  obtain ⟨r, hr, hlen, hsub⟩ := hs.1 cw k hk0 hkl
  rw [hr]
  refine ⟨_, r, rfl, ?_, hsub⟩
  rw [hlen, hk]
  split <;> omega

/-- Witness for the amended C3 at a concrete input: for `"cat cat."` with the
default request of 5 blanks, 2 = min 5 2 words are chosen from the 2
content-word occurrences. -/
theorem cloze_blank_count_witness :
    ∃ cloze chosen, generate_cloze_test sample_first "cat cat." 5 = some (cloze, chosen) ∧
      (chosen.length : ℤ) = min 5 ((content_words "cat cat.").length : ℤ) ∧
      chosen.Subperm (content_words "cat cat.") :=
  cloze_blank_count "cat cat." 5 sample_first sample_first_spec (by decide)

/-- Counterexample to C3 as stated: for `"cat cat."` the 2 content-word
occurrences are both the string `cat`, so there is only 1 distinct content
word, yet the returned blank list has length 2 ≠ min 5 1 — sampling targets
the occurrence list, not the distinct-word list, and can return duplicates. -/
theorem cloze_blank_count_cex :
    generate_cloze_test sample_first "cat cat." 5 = some ("_____ _____", ["cat", "cat"]) ∧
    (["cat", "cat"] : List String).length = 2 ∧
    min 5 ((content_words "cat cat.").dedup.length) = 1 :=
  ⟨by decide, by decide, by decide⟩

/-- C6 (amended): a zero requested blank count returns normally with no blanks
and the text unblanked, but a *negative* requested count is not clamped: the
code hands it to `random.sample`, which raises ValueError. -/
theorem cloze_zero_ok_negative_raises (text : String) (n : ℤ)
    (sampler : List String → ℤ → Option (List String)) (hs : SampleSpec sampler) :
    (n < 0 → generate_cloze_test sampler text n = none) ∧
    generate_cloze_test sampler text 0 =
      some (joinSpace (tokenize_text text), []) := by
  constructor
  · intro hn
    simp only [generate_cloze_test]
    have hk : (if ((content_words text).length : ℤ) < n
        then ((content_words text).length : ℤ) else n) = n := by
      split <;> omega
    rw [hk, hs.2 _ n (Or.inl hn)]
    rfl
  · simp only [generate_cloze_test]
    have hk : (if ((content_words text).length : ℤ) < 0
        then ((content_words text).length : ℤ) else 0) = 0 := by
      split <;> omega
    rw [hk]
    obtain ⟨r, hr, hlen, -⟩ :=
      hs.1 (content_words text) 0 le_rfl (Int.natCast_nonneg _)
    have hrnil : r = [] := by
      have : r.length = 0 := by omega
      exact List.length_eq_zero.mp this
    rw [hr, hrnil]
    simp

/-- Witness for the amended C6 at concrete inputs. -/
theorem cloze_zero_ok_negative_raises_witness :
    ((-1 : ℤ) < 0 ∧ generate_cloze_test sample_first "cat." (-1) = none) ∧
    generate_cloze_test sample_first "cat." 0 =
      some (joinSpace (tokenize_text "cat."), []) :=
  ⟨⟨by decide,
    (cloze_zero_ok_negative_raises "cat." (-1) sample_first sample_first_spec).1 (by decide)⟩,
   (cloze_zero_ok_negative_raises "cat." 0 sample_first sample_first_spec).2⟩

/-- Counterexample to C6 as stated: a negative requested blank count is not
clamped to the valid range — the call fails (ValueError from
`random.sample`). -/
theorem cloze_negative_cex : generate_cloze_test sample_first "cat." (-1) = none := by
  decide

/-- C4 (amended): `calculate_smog_index` returns 0 exactly when the sentence
count is below 30; whenever the sentence count is at least 30 it returns
`round1(1.0430*sqrt(P*(30/S)) + 3.1291)` with `P` the number of tokens of
syllable count ≥ 3 — regardless of the word count (there is no word-count
guard in the source). -/
theorem smog_index_formula (text : String) :
    ((sentence_tokenize text).length < 30 → calculate_smog_index text = some 0) ∧
    (30 ≤ (sentence_tokenize text).length →
      calculate_smog_index text = some (round1R (1.0430 * Real.sqrt
        ((((tokenize_text text).countP
            (fun w => 3 ≤ (count_syllables w).getD 0) : ℕ) : ℝ) *
          (30 / ((sentence_tokenize text).length : ℝ))) + 3.1291))) := by
  have hmap := mapM_count_syllables (tokenize_text text) (tokenize_text_data_ne_nil text)
  have hP : (((tokenize_text text).map
        (fun w => (count_syllables w).getD 0)).filter (fun n => 3 ≤ n)).length =
      (tokenize_text text).countP (fun w => 3 ≤ (count_syllables w).getD 0) := by
    rw [← List.countP_eq_length_filter, List.countP_map]
    rfl
  constructor
  · intro h
    rw [calculate_smog_index, hmap]
    simp [h]
  · intro h
    have hnot : ¬ (sentence_tokenize text).length < 30 := not_lt.mpr h
    rw [calculate_smog_index, hmap]
    simp only [Option.bind_eq_bind, Option.some_bind, hnot, if_false]
    rw [hP]
    rfl

/-- Witness for the amended C4: both branches at concrete inputs — one
sentence for the below-threshold branch, thirty for the formula branch. -/
theorem smog_index_formula_witness :
    ((sentence_tokenize "a.").length < 30 ∧ calculate_smog_index "a." = some 0) ∧
    (30 ≤ (sentence_tokenize smog_cex_text).length ∧
      calculate_smog_index smog_cex_text = some (round1R (1.0430 * Real.sqrt
        ((((tokenize_text smog_cex_text).countP
            (fun w => 3 ≤ (count_syllables w).getD 0) : ℕ) : ℝ) *
          (30 / ((sentence_tokenize smog_cex_text).length : ℝ))) + 3.1291))) :=
  ⟨⟨by decide, (smog_index_formula "a.").1 (by decide)⟩,
   ⟨by decide, (smog_index_formula smog_cex_text).2 (by decide)⟩⟩

/-- Counterexample to C4 as stated: a text of 30 bang-only sentences has word
count 0 yet SMOG index 3.1, not 0 — the source has no word-count guard, so
`1.0430*sqrt(0) + 3.1291` rounds to 3.1. -/
theorem smog_word_count_guard_cex :
    (tokenize_text smog_cex_text).length = 0 ∧
    30 ≤ (sentence_tokenize smog_cex_text).length ∧
    calculate_smog_index smog_cex_text = some 3.1 ∧ (3.1 : ℝ) ≠ 0 := by
  have ht : tokenize_text smog_cex_text = [] := by decide
  have hs : (sentence_tokenize smog_cex_text).length = 30 := by decide
  refine ⟨by rw [ht]; rfl, by rw [hs], ?_, by norm_num⟩
  rw [calculate_smog_index, ht, hs]
  have hm : (List.nil : List String).mapM count_syllables = some [] := rfl
  rw [hm]
  simp only [Option.bind_eq_bind, Option.some_bind]
  have h30 : ¬ (30 < 30) := by norm_num
  simp only [h30, if_false]
  have harg : ((([] : List ℤ).filter (fun n => 3 ≤ n)).length : ℝ) *
      (30 / ((30 : ℕ) : ℝ)) = 0 := by
    simp
  rw [harg, Real.sqrt_zero]
  have hval : (10 : ℝ) * (1.0430 * 0 + 3.1291) = 31.291 := by norm_num
  rw [round1R, hval]
  have hround : round (31.291 : ℝ) = 31 := by
    rw [round_eq]
    have : ⌊(31.291 : ℝ) + 1 / 2⌋ = ⌊(31.791 : ℝ)⌋ := by norm_num
    rw [this, Int.floor_eq_iff]
    constructor <;> norm_num
  rw [hround]
  norm_num
